import Mathlib

/-!
Shallow embedding of the core logic of a personal finance tracking web
application (transaction logging, debt tracking with payments, analytics
aggregation, family sharing, user preferences).

Conventions of the embedding:
* JavaScript numbers are modelled as rationals; amounts and rates are `ℚ`.
* `parseFloat` results are modelled as `Option ℚ` oracles (`none` for `NaN`).
* `Date` values are modelled by their epoch-millisecond integer; parsing a
  date string is modelled by an oracle `getTime : String → ℤ`.
* The remote store is modelled as in-memory lists; each UI handler that
  mutates it is also given as a state transition on those lists.
* TypeScript optional fields become `Option`; the `is_paid` / `is_active`
  boolean-as-string quirk ("0"/"1") is kept as `String`.
-/

namespace MoneyMate

/-! ## Data model (src/types/index.ts) -/

inductive TxType where
  | income
  | expense
deriving DecidableEq, Repr

inductive DebtType where
  | owe
  | lent
deriving DecidableEq, Repr

structure Transaction where
  id : String
  user_id : String
  type : TxType
  category : String
  amount_cad : ℚ
  amount_inr : ℚ
  exchange_rate : ℚ
  description : String
  date : String
  created_at : String
  updated_at : String
deriving DecidableEq, Repr

structure Debt where
  id : String
  user_id : String
  type : DebtType
  person_name : String
  total_amount_cad : ℚ
  total_amount_inr : ℚ
  remaining_amount_cad : ℚ
  remaining_amount_inr : ℚ
  exchange_rate : ℚ
  purpose : String
  due_date : Option String
  is_paid : String
  priority_score : ℚ
  created_at : String
  updated_at : String
deriving DecidableEq, Repr

structure DebtPayment where
  id : String
  debt_id : String
  user_id : String
  amount_cad : ℚ
  amount_inr : ℚ
  exchange_rate : ℚ
  payment_date : String
  notes : Option String
  created_at : String
deriving DecidableEq, Repr

structure UserPreferences where
  id : String
  user_id : String
  default_currency : String
  theme : String
  exchange_rate_cad_to_inr : ℚ
  created_at : String
  updated_at : String
deriving DecidableEq, Repr

structure FamilyAccess where
  id : String
  owner_user_id : String
  member_email : String
  access_level : String
  is_active : String
  created_at : String
  updated_at : String
deriving DecidableEq, Repr

/-! ## Debt lifecycle (src/components/DebtManager.tsx) -/

/--
Embeds `handleAddDebt`.  `parsedAmount` is the oracle for
`parseFloat(newDebt.amount)` (`none` when the result is `NaN`); the string
fields of the form are checked for JavaScript falsiness (empty string) in
the order the source checks them.  `freshId` and `nowIso` stand for the
generated id and the `new Date().toISOString()` timestamps.
-/
def handleAddDebt (ty : DebtType) (person_name amountStr purpose dueDateStr : String)
    (parsedAmount : Option ℚ) (exchangeRate : ℚ) (userId freshId nowIso : String) :
    Except String Debt :=
  if person_name = "" ∨ amountStr = "" ∨ purpose = "" then
    Except.error "Please fill in all required fields"
  else
    match parsedAmount with
    | none => Except.error "Please enter a valid amount"
    | some amountCad =>
      if amountCad ≤ 0 then Except.error "Please enter a valid amount"
      else
        Except.ok
          { id := freshId
            user_id := userId
            type := ty
            person_name := person_name
            total_amount_cad := amountCad
            total_amount_inr := amountCad * exchangeRate
            remaining_amount_cad := amountCad
            remaining_amount_inr := amountCad * exchangeRate
            exchange_rate := exchangeRate
            purpose := purpose
            due_date := if dueDateStr = "" then none else some dueDateStr
            is_paid := "0"
            priority_score := 0
            created_at := nowIso
            updated_at := nowIso }

/--
Embeds `handlePayment`.  `selectedDebt` and the form field `amountStr`
mirror the source guard `!selectedDebt || !payment.amount`; `parsedAmount`
is the oracle for `parseFloat(payment.amount)` (`none` when `NaN`).  On
success it returns the created `DebtPayment` record and the updated `Debt`
exactly as the source constructs them.
-/
def handlePayment (selectedDebt : Option Debt) (amountStr : String)
    (parsedAmount : Option ℚ) (notes : Option String) (exchangeRate : ℚ)
    (userId freshId paymentDate nowIso : String) :
    Except String (DebtPayment × Debt) :=
  match selectedDebt with
  | none => Except.error "Please enter payment amount"
  | some debt =>
    if amountStr = "" then Except.error "Please enter payment amount"
    else
      match parsedAmount with
      | none => Except.error "Please enter a valid payment amount"
      | some paymentAmount =>
        if paymentAmount ≤ 0 then Except.error "Please enter a valid payment amount"
        else if debt.remaining_amount_cad < paymentAmount then
          Except.error "Payment amount cannot exceed remaining debt"
        else
          let paymentRecord : DebtPayment :=
            { id := freshId
              debt_id := debt.id
              user_id := userId
              amount_cad := paymentAmount
              amount_inr := paymentAmount * exchangeRate
              exchange_rate := exchangeRate
              payment_date := paymentDate
              notes := notes
              created_at := nowIso }
          let newRemainingAmount := debt.remaining_amount_cad - paymentAmount
          let updatedDebt : Debt :=
            { debt with
              remaining_amount_cad := newRemainingAmount
              remaining_amount_inr := newRemainingAmount * exchangeRate
              is_paid := if newRemainingAmount ≤ 0 then "1" else "0"
              updated_at := nowIso }
          Except.ok (paymentRecord, updatedDebt)

/-- The in-memory view of the two collections `handlePayment` writes to. -/
structure DebtStore where
  debts : List Debt
  payments : List DebtPayment
deriving DecidableEq, Repr

/-- Embeds `blink.db.debts.update(id, record)` on the in-memory list. -/
def updateDebtList (debts : List Debt) (debtId : String) (d : Debt) : List Debt :=
  debts.map (fun x => if x.id = debtId then d else x)

/--
The state transition performed by `handlePayment` on the two collections:
on any validation error the handler returns before either remote call, so
the store is unchanged; on success the payment record is created and the
selected debt is updated in place.
-/
def handlePaymentStore (s : DebtStore) (selectedDebt : Option Debt) (amountStr : String)
    (parsedAmount : Option ℚ) (notes : Option String) (exchangeRate : ℚ)
    (userId freshId paymentDate nowIso : String) : DebtStore :=
  match handlePayment selectedDebt amountStr parsedAmount notes exchangeRate
      userId freshId paymentDate nowIso with
  | Except.error _ => s
  | Except.ok (p, d) =>
    { debts := updateDebtList s.debts d.id d, payments := s.payments ++ [p] }

/--
Embeds `getDaysUntilDue`.  `getTime dueDate` models
`new Date(dueDate).getTime()` and `todayMs` models `new Date().getTime()`;
`Math.ceil` of the millisecond quotient is the rational ceiling.
-/
def getDaysUntilDue (getTime : String → ℤ) (todayMs : ℤ) (dueDate : String) : ℤ :=
  let diffTime : ℤ := getTime dueDate - todayMs
  ⌈(diffTime : ℚ) / ((1000 * 60 * 60 * 24 : ℤ) : ℚ)⌉

/-- Embeds `getPriorityLevel`. -/
def getPriorityLevel (getTime : String → ℤ) (todayMs : ℤ) (debt : Debt) : String :=
  match debt.due_date with
  | none => "low"
  | some dueDate =>
    let daysUntilDue := getDaysUntilDue getTime todayMs dueDate
    if daysUntilDue < 0 then "overdue"
    else if daysUntilDue ≤ 7 then "urgent"
    else if daysUntilDue ≤ 30 then "medium"
    else "low"

/-- The remote calls a handler issues, in order. -/
inductive RemoteCall where
  | createCall (table : String)
  | updateCall (table recordId : String)
  | deleteCall (table recordId : String)
deriving DecidableEq, Repr

/--
Embeds `deleteDebt` (DebtManager) as the list of remote calls it issues.
The `confirm` oracle models the browser confirmation dialog: `confirm msg`
is the answer the user would give to a prompt showing `msg`.  The source
of `deleteDebt` never invokes `confirm`; it issues the delete directly.
-/
def deleteDebt (confirm : String → Bool) (debtId : String) : List RemoteCall :=
  let _ := confirm
  [RemoteCall.deleteCall "debts" debtId]

/-- The prompt text `removeFamilyMember` shows. -/
def removeFamilyMemberPrompt (memberEmail : String) : String :=
  "Are you sure you want to remove " ++ memberEmail ++ " from family access?"

/--
Embeds `removeFamilyMember` (FamilyAccess) as the list of remote calls it
issues: the delete happens only when the user confirms the prompt.
-/
def removeFamilyMember (confirm : String → Bool) (memberId memberEmail : String) :
    List RemoteCall :=
  if confirm (removeFamilyMemberPrompt memberEmail) then
    [RemoteCall.deleteCall "family_access" memberId]
  else []

/-! ## Settings (src/components/Settings.tsx) -/

/-- The default preferences record `loadPreferences` creates. -/
def defaultPreferences (userId freshId nowIso : String) : UserPreferences :=
  { id := freshId
    user_id := userId
    default_currency := "CAD"
    theme := "light"
    exchange_rate_cad_to_inr := 61.5
    created_at := nowIso
    updated_at := nowIso }

/--
Embeds `loadPreferences` as a transition on the preferences collection:
the `list` call with `where user_id = userId, limit 1` is the first match
of the equality filter; when it is empty a default record is created.
Returns the new collection state and the record the component keeps.
-/
def loadPreferences (store : List UserPreferences) (userId freshId nowIso : String) :
    List UserPreferences × UserPreferences :=
  match (store.filter (fun p => p.user_id = userId)).take 1 with
  | p :: _ => (store, p)
  | [] =>
    (store ++ [defaultPreferences userId freshId nowIso],
     defaultPreferences userId freshId nowIso)

/-! ## Family access (src/components/FamilyAccess.tsx) -/

/--
Embeds `addFamilyMember`.  `userEmail` is the signed-in user's email;
`familyMembers` is the component's loaded grant list, against which the
duplicate check runs.  Validation mirrors the source order: falsy or
`@`-free email, then self-add, then duplicate.
-/
def addFamilyMember (newMemberEmail userEmail : String)
    (familyMembers : List FamilyAccess) (userId freshId nowIso : String) :
    Except String FamilyAccess :=
  if newMemberEmail = "" ∨ newMemberEmail.contains '@' = false then
    Except.error "Please enter a valid email address"
  else if newMemberEmail = userEmail then
    Except.error "You cannot add yourself as a family member"
  else if (familyMembers.find? (fun m => m.member_email = newMemberEmail)).isSome then
    Except.error "This email is already added as a family member"
  else
    Except.ok
      { id := freshId
        owner_user_id := userId
        member_email := newMemberEmail
        access_level := "view"
        is_active := "1"
        created_at := nowIso
        updated_at := nowIso }

/--
The state transition `addFamilyMember` performs on the grant collection:
unchanged on any rejection (the handler returns before the create call),
extended by the new grant on success.
-/
def addFamilyMemberStore (familyMembers : List FamilyAccess)
    (newMemberEmail userEmail : String) (userId freshId nowIso : String) :
    List FamilyAccess :=
  match addFamilyMember newMemberEmail userEmail familyMembers userId freshId nowIso with
  | Except.error _ => familyMembers
  | Except.ok g => familyMembers ++ [g]

/-! ## Analytics (src/components/Analytics.tsx)

The JavaScript `Map` accumulated by `forEach` is modelled as an
insertion-ordered association list; `Map.set` on a present key updates in
place, on an absent key appends. -/

/--
One `map.set(key, updated)` step: the absent-key case starts from the
zero record and immediately adds the delta, so it stores the delta.
-/
def bumpKey {M : Type} [Add M] (k : String) (dv : M) :
    List (String × M) → List (String × M)
  | [] => [(k, dv)]
  | e :: rest =>
    if e.1 = k then (k, e.2 + dv) :: rest else e :: bumpKey k dv rest

/-- Association-list lookup, the model of `map.get`. -/
def lookupKey {M : Type} : List (String × M) → String → Option M
  | [], _ => none
  | e :: rest, m => if e.1 = m then some e.2 else lookupKey rest m

/-- Lookup with the zero record as default (`map.get(k) || zero`). -/
def lookupZ {M : Type} [Zero M] (l : List (String × M)) (m : String) : M :=
  (lookupKey l m).getD 0

/-- The key column of the accumulated map. -/
def keysOf {M : Type} (l : List (String × M)) : List String :=
  l.map Prod.fst

/--
The whole `forEach` accumulation: fold the transaction list into the map,
grouping by `key` and adding `delta` per item.
-/
def foldMap {α M : Type} [Add M] (key : α → String) (delta : α → M)
    (ts : List α) : List (String × M) :=
  ts.foldl (fun acc t => bumpKey (key t) (delta t) acc) []

/-- Specification-side grouped sum: the total of `delta` over the items of
`ts` whose key is `m`. -/
def sumBy {α M : Type} [AddMonoid M] (key : α → String) (delta : α → M) :
    List α → String → M
  | [], _ => 0
  | t :: ts, m => (if key t = m then delta t else 0) + sumBy key delta ts m

/-- The (income, expenses) contribution of one transaction, mirroring the
source branch on `transaction.type`. -/
def txDelta (t : Transaction) : ℚ × ℚ :=
  match t.type with
  | TxType.income => (t.amount_cad, 0)
  | TxType.expense => (0, t.amount_cad)

structure MonthlyData where
  month : String
  income : ℚ
  expenses : ℚ
  net : ℚ
deriving DecidableEq, Repr

structure CategoryData where
  category : String
  amount : ℚ
  percentage : ℚ
  transactions : ℕ
deriving DecidableEq, Repr

/--
Embeds `getMonthlyData`: group by the first seven characters of the date,
accumulate income and expense sums, map to records with
`net = income - expenses`, and sort ascending by month key
(`localeCompare`, modelled by lexicographic string order; JavaScript
`Array.prototype.sort` is stable, as is insertion sort).
-/
def getMonthlyData (ts : List Transaction) : List MonthlyData :=
  List.insertionSort (fun a b => a.month ≤ b.month)
    ((foldMap (fun t => t.date.take 7) txDelta ts).map
      (fun e => { month := e.1, income := e.2.1, expenses := e.2.2, net := e.2.1 - e.2.2 }))

/--
Embeds `getCategoryData`: filter to the requested type, total that type
with `reduce`, group by category accumulating amount and count, attach
`percentage = amount / totalAmount * 100` when `totalAmount > 0` and `0`
otherwise, and sort descending by amount.
-/
def getCategoryData (ts : List Transaction) (ty : TxType) : List CategoryData :=
  let typeTransactions := ts.filter (fun t => decide (t.type = ty))
  let totalAmount := typeTransactions.foldl (fun s t => s + t.amount_cad) 0
  List.insertionSort (fun a b => b.amount ≤ a.amount)
    ((foldMap (fun t => t.category) (fun t => (t.amount_cad, (1 : ℕ))) typeTransactions).map
      (fun e =>
        { category := e.1
          amount := e.2.1
          percentage := if 0 < totalAmount then e.2.1 / totalAmount * 100 else 0
          transactions := e.2.2 }))

/-! ## Specification-side definitions (worded from the spec, for
refinement comparison with the source embedding) -/

/-- Spec wording: the income sum of the month `m`. -/
def sumIncome : List Transaction → String → ℚ
  | [], _ => 0
  | t :: ts, m =>
    (if t.date.take 7 = m ∧ t.type = TxType.income then t.amount_cad else 0) +
      sumIncome ts m

/-- Spec wording: the expense sum of the month `m`. -/
def sumExpense : List Transaction → String → ℚ
  | [], _ => 0
  | t :: ts, m =>
    (if t.date.take 7 = m ∧ t.type = TxType.expense then t.amount_cad else 0) +
      sumExpense ts m

/-- Spec wording: the amount sum of category `c` among type-`ty`
transactions. -/
def sumCat : List Transaction → TxType → String → ℚ
  | [], _, _ => 0
  | t :: ts, ty, c =>
    (if t.type = ty ∧ t.category = c then t.amount_cad else 0) + sumCat ts ty c

/-- Spec wording: how many type-`ty` transactions fall in category `c`. -/
def countCat : List Transaction → TxType → String → ℕ
  | [], _, _ => 0
  | t :: ts, ty, c =>
    (if t.type = ty ∧ t.category = c then 1 else 0) + countCat ts ty c

/-- Spec wording: the total amount of the requested type. -/
def totalOfType : List Transaction → TxType → ℚ
  | [], _ => 0
  | t :: ts, ty => (if t.type = ty then t.amount_cad else 0) + totalOfType ts ty

/-- The Debt invariant of the spec: the remaining base amount stays
between zero and the total, and the paid flag is set exactly when the
remaining amount is at most zero. -/
def DebtInvariant (d : Debt) : Prop :=
  0 ≤ d.remaining_amount_cad ∧ d.remaining_amount_cad ≤ d.total_amount_cad ∧
    (d.is_paid = "1" ↔ d.remaining_amount_cad ≤ 0)

instance (d : Debt) : Decidable (DebtInvariant d) := by
  unfold DebtInvariant; infer_instance

/-! ## Theorems -/

/-! ### Association-list accumulation lemmas -/

theorem lookupZ_nil {M : Type} [Zero M] (m : String) :
    lookupZ ([] : List (String × M)) m = 0 := rfl

theorem keysOf_cons {M : Type} (e : String × M) (l : List (String × M)) :
    keysOf (e :: l) = e.1 :: keysOf l := rfl

theorem lookupZ_cons {M : Type} [Zero M] (k : String) (v : M)
    (rest : List (String × M)) (m : String) :
    lookupZ ((k, v) :: rest) m = if k = m then v else lookupZ rest m := by
  simp only [lookupZ, lookupKey]
  by_cases h : k = m
  · rw [if_pos h, if_pos h]
    rfl
  · rw [if_neg h, if_neg h]

theorem lookupZ_bumpKey {M : Type} [AddMonoid M] (k : String) (dv : M)
    (l : List (String × M)) (m : String) :
    lookupZ (bumpKey k dv l) m = if k = m then lookupZ l m + dv else lookupZ l m := by
  induction l with
  | nil =>
    by_cases h : k = m
    · simp [bumpKey, lookupZ_cons, lookupZ_nil, h]
    · simp [bumpKey, lookupZ_cons, lookupZ_nil, h]
  | cons e rest ih =>
    obtain ⟨ek, ev⟩ := e
    by_cases hek : ek = k
    · subst hek
      by_cases hkm : ek = m
      · subst hkm
        simp [bumpKey, lookupZ_cons]
      · simp [bumpKey, lookupZ_cons, hkm]
    · by_cases hem : ek = m
      · subst hem
        have hkm : ¬ k = ek := fun h => hek h.symm
        simp [bumpKey, hek, lookupZ_cons, hkm]
      · simp [bumpKey, hek, lookupZ_cons, hem, ih]

theorem lookupZ_foldl {α M : Type} [AddMonoid M] (key : α → String) (delta : α → M)
    (ts : List α) (m : String) :
    ∀ acc, lookupZ (ts.foldl (fun acc t => bumpKey (key t) (delta t) acc) acc) m =
      lookupZ acc m + sumBy key delta ts m := by
  induction ts with
  | nil =>
    intro acc
    simp [sumBy]
  | cons t ts ih =>
    intro acc
    rw [List.foldl_cons, ih, lookupZ_bumpKey]
    simp only [sumBy]
    by_cases h : key t = m
    · rw [if_pos h, if_pos h, add_assoc]
    · rw [if_neg h, if_neg h, zero_add]

theorem lookupZ_foldMap {α M : Type} [AddMonoid M] (key : α → String) (delta : α → M)
    (ts : List α) (m : String) :
    lookupZ (foldMap key delta ts) m = sumBy key delta ts m := by
  simp only [foldMap]
  rw [lookupZ_foldl]
  rw [lookupZ_nil, zero_add]

theorem mem_keysOf_bumpKey {M : Type} [Add M] (k : String) (dv : M)
    (l : List (String × M)) (m : String) :
    m ∈ keysOf (bumpKey k dv l) ↔ m ∈ keysOf l ∨ m = k := by
  induction l with
  | nil =>
    simp [bumpKey, keysOf]
  | cons e rest ih =>
    obtain ⟨ek, ev⟩ := e
    by_cases hek : ek = k
    · subst hek
      rw [show bumpKey ek dv ((ek, ev) :: rest) = (ek, ev + dv) :: rest from by
        simp [bumpKey]]
      simp only [keysOf_cons, List.mem_cons]
      tauto
    · rw [show bumpKey k dv ((ek, ev) :: rest) = (ek, ev) :: bumpKey k dv rest from by
        simp [bumpKey, hek]]
      simp only [keysOf_cons, List.mem_cons]
      rw [ih]
      tauto

theorem nodup_keysOf_bumpKey {M : Type} [Add M] (k : String) (dv : M)
    (l : List (String × M)) (h : (keysOf l).Nodup) :
    (keysOf (bumpKey k dv l)).Nodup := by
  induction l with
  | nil =>
    simp [bumpKey, keysOf]
  | cons e rest ih =>
    obtain ⟨ek, ev⟩ := e
    rw [keysOf_cons, List.nodup_cons] at h
    by_cases hek : ek = k
    · subst hek
      rw [show bumpKey ek dv ((ek, ev) :: rest) = (ek, ev + dv) :: rest from by
        simp [bumpKey]]
      rw [keysOf_cons, List.nodup_cons]
      exact ⟨h.1, h.2⟩
    · rw [show bumpKey k dv ((ek, ev) :: rest) = (ek, ev) :: bumpKey k dv rest from by
        simp [bumpKey, hek]]
      rw [keysOf_cons, List.nodup_cons]
      refine ⟨fun hmem => ?_, ih h.2⟩
      rcases (mem_keysOf_bumpKey k dv rest ek).mp hmem with hmem2 | heq
      · exact h.1 hmem2
      · exact hek heq

theorem mem_keysOf_foldl {α M : Type} [Add M] (key : α → String) (delta : α → M)
    (ts : List α) (m : String) :
    ∀ acc, m ∈ keysOf (ts.foldl (fun acc t => bumpKey (key t) (delta t) acc) acc) ↔
      m ∈ keysOf acc ∨ ∃ t, t ∈ ts ∧ key t = m := by
  induction ts with
  | nil =>
    intro acc
    simp
  | cons t ts ih =>
    intro acc
    rw [List.foldl_cons, ih, mem_keysOf_bumpKey]
    constructor
    · rintro ((hacc | hm) | ⟨t2, ht2, hkey⟩)
      · exact Or.inl hacc
      · exact Or.inr ⟨t, List.mem_cons_self t ts, hm.symm⟩
      · exact Or.inr ⟨t2, List.mem_cons_of_mem t ht2, hkey⟩
    · rintro (hacc | ⟨t2, ht2, hkey⟩)
      · exact Or.inl (Or.inl hacc)
      · rcases List.mem_cons.mp ht2 with rfl | ht2
        · exact Or.inl (Or.inr hkey.symm)
        · exact Or.inr ⟨t2, ht2, hkey⟩

theorem nodup_keysOf_foldl {α M : Type} [Add M] (key : α → String) (delta : α → M)
    (ts : List α) :
    ∀ acc, (keysOf acc).Nodup →
      (keysOf (ts.foldl (fun acc t => bumpKey (key t) (delta t) acc) acc)).Nodup := by
  induction ts with
  | nil =>
    intro acc h
    simpa using h
  | cons t ts ih =>
    intro acc h
    rw [List.foldl_cons]
    exact ih _ (nodup_keysOf_bumpKey _ _ _ h)

theorem mem_keysOf_foldMap {α M : Type} [Add M] (key : α → String) (delta : α → M)
    (ts : List α) (m : String) :
    m ∈ keysOf (foldMap key delta ts) ↔ ∃ t, t ∈ ts ∧ key t = m := by
  simp only [foldMap]
  rw [mem_keysOf_foldl]
  simp [keysOf]

theorem nodup_keysOf_foldMap {α M : Type} [Add M] (key : α → String) (delta : α → M)
    (ts : List α) : (keysOf (foldMap key delta ts)).Nodup := by
  simp only [foldMap]
  exact nodup_keysOf_foldl _ _ _ _ (by simp [keysOf])

theorem lookupKey_eq_of_mem {M : Type} (l : List (String × M)) (m : String) (v : M)
    (hnd : (keysOf l).Nodup) (hmem : (m, v) ∈ l) : lookupKey l m = some v := by
  induction l with
  | nil =>
    simp at hmem
  | cons e rest ih =>
    obtain ⟨ek, ev⟩ := e
    rw [keysOf_cons, List.nodup_cons] at hnd
    rcases List.mem_cons.mp hmem with heq | hrest
    · injection heq with h1 h2
      subst h1
      subst h2
      simp [lookupKey]
    · have hm : m ∈ keysOf rest := by
        have := List.mem_map_of_mem Prod.fst hrest
        simpa [keysOf] using this
      have hne : ¬ ek = m := fun h => hnd.1 (h ▸ hm)
      rw [show lookupKey ((ek, ev) :: rest) m = lookupKey rest m from by
        simp [lookupKey, hne]]
      exact ih hnd.2 hrest

theorem foldMap_values {α M : Type} [AddMonoid M] (key : α → String) (delta : α → M)
    (ts : List α) (p : String × M) (hp : p ∈ foldMap key delta ts) :
    p.2 = sumBy key delta ts p.1 := by
  have hl : lookupKey (foldMap key delta ts) p.1 = some p.2 :=
    lookupKey_eq_of_mem _ _ _ (nodup_keysOf_foldMap key delta ts) (by simpa using hp)
  have h2 := lookupZ_foldMap key delta ts p.1
  simp only [lookupZ] at h2
  rw [hl] at h2
  simpa using h2

theorem sumBy_txDelta (ts : List Transaction) (m : String) :
    sumBy (fun t => t.date.take 7) txDelta ts m = (sumIncome ts m, sumExpense ts m) := by
  induction ts with
  | nil => rfl
  | cons t ts ih =>
    simp only [sumBy, sumIncome, sumExpense, ih]
    by_cases hm : t.date.take 7 = m
    · cases htype : t.type with
      | income => simp [txDelta, htype, hm, Prod.ext_iff]
      | expense => simp [txDelta, htype, hm, Prod.ext_iff]
    · simp [hm, Prod.ext_iff]

theorem sumBy_catDelta (ts : List Transaction) (ty : TxType) (c : String) :
    sumBy (fun t => t.category) (fun t => (t.amount_cad, (1 : ℕ)))
        (ts.filter (fun t => decide (t.type = ty))) c =
      (sumCat ts ty c, countCat ts ty c) := by
  induction ts with
  | nil => rfl
  | cons t ts ih =>
    by_cases hty : t.type = ty
    · rw [List.filter_cons_of_pos (by simp [hty])]
      simp only [sumBy, ih]
      by_cases hc : t.category = c
      · simp [sumCat, countCat, hc, hty, Prod.ext_iff]
      · simp [sumCat, countCat, hc, hty, Prod.ext_iff]
    · rw [List.filter_cons_of_neg (by simp [hty]), ih]
      simp [sumCat, countCat, hty, Prod.ext_iff]

theorem totalOfType_foldl (ts : List Transaction) (ty : TxType) :
    ∀ init : ℚ,
      (ts.filter (fun t => decide (t.type = ty))).foldl (fun s t => s + t.amount_cad) init =
        init + totalOfType ts ty := by
  induction ts with
  | nil =>
    intro init
    simp [totalOfType]
  | cons t ts ih =>
    intro init
    by_cases hty : t.type = ty
    · rw [List.filter_cons_of_pos (by simp [hty]), List.foldl_cons, ih]
      simp only [totalOfType, if_pos hty]
      rw [add_assoc]
    · rw [List.filter_cons_of_neg (by simp [hty]), ih]
      simp [totalOfType, hty]

/-- C1: for every debt and payment amount satisfying the preconditions
(positive and at most the remaining base amount, entered in a nonempty
form field), `handlePayment` succeeds and the updated debt has remaining
base amount equal to the old remaining amount minus the payment, remaining
secondary amount equal to the new remaining amount times the exchange
rate, and the paid flag set exactly when the new remaining amount is at
most zero. -/
theorem handlePayment_applies (debt : Debt) (amountStr : String) (a : ℚ)
    (notes : Option String) (rate : ℚ) (userId freshId paymentDate nowIso : String)
    (hstr : amountStr ≠ "") (hpos : 0 < a) (hle : a ≤ debt.remaining_amount_cad) :
    ∃ p d, handlePayment (some debt) amountStr (some a) notes rate
        userId freshId paymentDate nowIso = Except.ok (p, d) ∧
      d.remaining_amount_cad = debt.remaining_amount_cad - a ∧
      d.remaining_amount_inr = (debt.remaining_amount_cad - a) * rate ∧
      (d.is_paid = "1" ↔ debt.remaining_amount_cad - a ≤ 0) := by
  have h1 : ¬ a ≤ 0 := not_le.mpr hpos
  have h2 : ¬ debt.remaining_amount_cad < a := not_lt.mpr hle
  refine ⟨⟨freshId, debt.id, userId, a, a * rate, rate, paymentDate, notes, nowIso⟩,
    { debt with
      remaining_amount_cad := debt.remaining_amount_cad - a
      remaining_amount_inr := (debt.remaining_amount_cad - a) * rate
      is_paid := if debt.remaining_amount_cad - a ≤ 0 then "1" else "0"
      updated_at := nowIso }, ?_, rfl, rfl, ?_⟩
  · simp only [handlePayment, if_neg hstr, if_neg h1, if_neg h2]
  · show (if debt.remaining_amount_cad - a ≤ 0 then "1" else "0") = "1" ↔
      debt.remaining_amount_cad - a ≤ 0
    by_cases h : debt.remaining_amount_cad - a ≤ 0
    · rw [if_pos h]
      exact iff_of_true rfl h
    · rw [if_neg h]
      exact iff_of_false (by decide) h

/-- C1 witness: a payment of 40 against a remaining amount of 100 leaves
remaining 60, secondary 120 at rate 2, unpaid. -/
theorem handlePayment_applies_witness :
    ∃ p d, handlePayment
        (some ⟨"d1", "u1", DebtType.owe, "Bob", 100, 200, 100, 200, 2, "rent",
          none, "0", 0, "t0", "t0"⟩)
        "40" (some 40) none 2 "u1" "p1" "2024-01-02" "t1" = Except.ok (p, d) ∧
      d.remaining_amount_cad = 100 - 40 ∧
      d.remaining_amount_inr = (100 - 40) * 2 ∧
      (d.is_paid = "1" ↔ (100 : ℚ) - 40 ≤ 0) :=
  handlePayment_applies _ "40" 40 none 2 "u1" "p1" "2024-01-02" "t1"
    (by decide) (by norm_num) (by norm_num)

/-- C2: for every debt and payment input that is not a positive number
(`NaN` or nonpositive) or exceeds the remaining base amount,
`handlePayment` is rejected with a validation error and the two
collections are unchanged. -/
theorem handlePayment_rejects (s : DebtStore) (debt : Debt) (amountStr : String)
    (parsedAmount : Option ℚ) (notes : Option String) (rate : ℚ)
    (userId freshId paymentDate nowIso : String)
    (hbad : ∀ a : ℚ, parsedAmount = some a → a ≤ 0 ∨ debt.remaining_amount_cad < a) :
    (∃ msg, handlePayment (some debt) amountStr parsedAmount notes rate
        userId freshId paymentDate nowIso = Except.error msg) ∧
      handlePaymentStore s (some debt) amountStr parsedAmount notes rate
        userId freshId paymentDate nowIso = s := by
  obtain ⟨msg, herr⟩ : ∃ msg, handlePayment (some debt) amountStr parsedAmount notes rate
      userId freshId paymentDate nowIso = Except.error msg := by
    by_cases hs : amountStr = ""
    · exact ⟨"Please enter payment amount", by simp only [handlePayment, if_pos hs]⟩
    · cases parsedAmount with
      | none =>
        exact ⟨"Please enter a valid payment amount",
          by simp only [handlePayment, if_neg hs]⟩
      | some a =>
        by_cases h0 : a ≤ 0
        · exact ⟨"Please enter a valid payment amount",
            by simp only [handlePayment, if_neg hs, if_pos h0]⟩
        · have hgt : debt.remaining_amount_cad < a := (hbad a rfl).resolve_left h0
          exact ⟨"Payment amount cannot exceed remaining debt",
            by simp only [handlePayment, if_neg hs, if_neg h0, if_pos hgt]⟩
  exact ⟨⟨msg, herr⟩, by simp only [handlePaymentStore, herr]⟩

/-- C2 witness: a payment of 150 against a remaining amount of 100 is
rejected and leaves the store unchanged. -/
theorem handlePayment_rejects_witness :
    (∃ msg, handlePayment
        (some ⟨"d1", "u1", DebtType.owe, "Bob", 100, 200, 100, 200, 2, "rent",
          none, "0", 0, "t0", "t0"⟩)
        "150" (some 150) none 2 "u1" "p1" "2024-01-02" "t1" = Except.error msg) ∧
      handlePaymentStore ⟨[], []⟩
        (some ⟨"d1", "u1", DebtType.owe, "Bob", 100, 200, 100, 200, 2, "rent",
          none, "0", 0, "t0", "t0"⟩)
        "150" (some 150) none 2 "u1" "p1" "2024-01-02" "t1" = ⟨[], []⟩ :=
  handlePayment_rejects ⟨[], []⟩ _ "150" (some 150) none 2 "u1" "p1" "2024-01-02" "t1"
    (fun a ha => Or.inr (by
      obtain rfl : (150 : ℚ) = a := Option.some.inj ha
      norm_num))

/-- C3: `getPriorityLevel` returns `low` for a debt without a due date;
otherwise, with `daysUntilDue` the ceiling of the millisecond difference
divided by one day, it returns `overdue` below 0, `urgent` on 0..7,
`medium` on 8..30 and `low` from 31 on, with each boundary inclusive on
the lower bound of its band. -/
theorem getPriorityLevel_bands (getTime : String → ℤ) (todayMs : ℤ) (debt : Debt) :
    (debt.due_date = none → getPriorityLevel getTime todayMs debt = "low") ∧
    (∀ dueDate, debt.due_date = some dueDate →
      ∀ d : ℤ,
        d = ⌈((getTime dueDate - todayMs : ℤ) : ℚ) / ((1000 * 60 * 60 * 24 : ℤ) : ℚ)⌉ →
        (d < 0 → getPriorityLevel getTime todayMs debt = "overdue") ∧
        (0 ≤ d ∧ d ≤ 7 → getPriorityLevel getTime todayMs debt = "urgent") ∧
        (8 ≤ d ∧ d ≤ 30 → getPriorityLevel getTime todayMs debt = "medium") ∧
        (31 ≤ d → getPriorityLevel getTime todayMs debt = "low")) := by
  constructor
  · intro h
    simp only [getPriorityLevel, h]
  · intro dueDate hdd d hd
    have heq : getPriorityLevel getTime todayMs debt =
        if d < 0 then "overdue"
        else if d ≤ 7 then "urgent"
        else if d ≤ 30 then "medium"
        else "low" := by
      simp only [getPriorityLevel, getDaysUntilDue, hdd, ← hd]
    refine ⟨?_, ?_, ?_, ?_⟩
    · intro h
      rw [heq, if_pos h]
    · intro h
      rw [heq, if_neg (by omega), if_pos (by omega)]
    · intro h
      rw [heq, if_neg (by omega), if_neg (by omega), if_pos (by omega)]
    · intro h
      rw [heq, if_neg (by omega), if_neg (by omega), if_neg (by omega)]

/-- C3 witness: a due date exactly seven days (in milliseconds) after
today is classified `urgent`. -/
theorem getPriorityLevel_bands_witness :
    getPriorityLevel (fun _ => 604800000) 0
      ⟨"d1", "u1", DebtType.owe, "Bob", 100, 200, 100, 200, 2, "rent",
        some "2024-01-08", "0", 0, "t0", "t0"⟩ = "urgent" :=
  ((getPriorityLevel_bands (fun _ => 604800000) 0 _).2 "2024-01-08" rfl 7
    (by
      rw [show ((604800000 - 0 : ℤ) : ℚ) / ((1000 * 60 * 60 * 24 : ℤ) : ℚ) = ((7 : ℤ) : ℚ)
        from by norm_num, Int.ceil_intCast])).2.1 (by decide)

/-- C4: a debt produced by a successful `handleAddDebt` satisfies the
invariant `0 ≤ remaining ≤ total` with the paid flag set exactly when the
remaining amount is at most zero, and is initialized with
`remaining = total`, paid flag `"0"` and priority score 0; and
`handlePayment` preserves the invariant: when the input debt has
`remaining ≤ total`, the updated debt satisfies the invariant. -/
theorem debt_invariants :
    (∀ ty personName amountStr purpose dueDateStr parsedAmount rate userId freshId nowIso d,
      handleAddDebt ty personName amountStr purpose dueDateStr parsedAmount rate
          userId freshId nowIso = Except.ok d →
        DebtInvariant d ∧ d.remaining_amount_cad = d.total_amount_cad ∧
          d.is_paid = "0" ∧ d.priority_score = 0) ∧
    (∀ debt amountStr a notes rate userId freshId paymentDate nowIso p d,
      debt.remaining_amount_cad ≤ debt.total_amount_cad →
      handlePayment (some debt) amountStr (some a) notes rate
          userId freshId paymentDate nowIso = Except.ok (p, d) →
        DebtInvariant d) := by
  constructor
  · intro ty personName amountStr purpose dueDateStr parsedAmount rate userId freshId nowIso d h
    cases parsedAmount with
    | none =>
      simp only [handleAddDebt] at h
      split at h
      · exact absurd h (by simp)
      · exact absurd h (by simp)
    | some amountCad =>
      simp only [handleAddDebt] at h
      split at h
      · exact absurd h (by simp)
      · split at h
        · exact absurd h (by simp)
        · rename_i hpos
          injection h with h
          subst h
          push_neg at hpos
          exact ⟨⟨le_of_lt hpos, le_refl _,
              iff_of_false (fun hc => absurd hc (by decide : ("0" : String) ≠ "1"))
                (not_le.mpr hpos)⟩,
            rfl, rfl, rfl⟩
  · intro debt amountStr a notes rate userId freshId paymentDate nowIso p d hinv h
    simp only [handlePayment] at h
    split at h
    · exact absurd h (by simp)
    · split at h
      · exact absurd h (by simp)
      · split at h
        · exact absurd h (by simp)
        · rename_i hpos hgt
          push_neg at hpos hgt
          simp only [Except.ok.injEq, Prod.mk.injEq] at h
          obtain ⟨-, hd⟩ := h
          subst hd
          refine ⟨sub_nonneg.mpr hgt, le_trans (sub_le_self _ (le_of_lt hpos)) hinv, ?_⟩
          show (if debt.remaining_amount_cad - a ≤ 0 then "1" else "0") = "1" ↔
            debt.remaining_amount_cad - a ≤ 0
          by_cases hz : debt.remaining_amount_cad - a ≤ 0
          · rw [if_pos hz]
            exact iff_of_true rfl hz
          · rw [if_neg hz]
            exact iff_of_false (by decide) hz

/-- C4 witness: adding a debt of 100 yields a debt satisfying the
invariant, with remaining equal to total, unpaid, priority score 0. -/
theorem debt_invariants_witness :
    DebtInvariant
      ⟨"d1", "u1", DebtType.owe, "Alice", 100, 200, 100, 200, 2, "rent",
        none, "0", 0, "t0", "t0"⟩ ∧
      (100 : ℚ) = 100 ∧ "0" = "0" ∧ (0 : ℚ) = 0 :=
  debt_invariants.1 DebtType.owe "Alice" "100" "rent" "" (some 100) 2 "u1" "d1" "t0"
    ⟨"d1", "u1", DebtType.owe, "Alice", 100, 200, 100, 200, 2, "rent",
      none, "0", 0, "t0", "t0"⟩
    (by
      simp only [handleAddDebt]
      rw [if_neg (by decide : ¬("Alice" = "" ∨ "100" = "" ∨ "rent" = ""))]
      rw [if_neg (by norm_num : ¬(100 : ℚ) ≤ 0)]
      norm_num)

/-- C7: loading preferences for a user with no preferences record appends
exactly one record, with defaults currency `CAD`, theme `light` and
exchange rate 61.5, and returns it; when a record exists, that record is
returned and the collection is unchanged. -/
theorem loadPreferences_spec (store : List UserPreferences) (userId freshId nowIso : String) :
    (store.filter (fun p => p.user_id = userId) = [] →
      loadPreferences store userId freshId nowIso =
        (store ++ [defaultPreferences userId freshId nowIso],
          defaultPreferences userId freshId nowIso) ∧
      (defaultPreferences userId freshId nowIso).default_currency = "CAD" ∧
      (defaultPreferences userId freshId nowIso).theme = "light" ∧
      (defaultPreferences userId freshId nowIso).exchange_rate_cad_to_inr = 61.5) ∧
    (∀ p ps, store.filter (fun q => q.user_id = userId) = p :: ps →
      loadPreferences store userId freshId nowIso = (store, p)) := by
  constructor
  · intro h
    refine ⟨?_, rfl, rfl, rfl⟩
    simp only [loadPreferences, h, List.take_nil]
  · intro p ps h
    simp only [loadPreferences, h, List.take_succ_cons, List.take_zero]

/-- C7 witness: on an empty collection a single default record is
created and returned. -/
theorem loadPreferences_spec_witness :
    loadPreferences [] "u1" "pref1" "t0" =
        ([] ++ [defaultPreferences "u1" "pref1" "t0"], defaultPreferences "u1" "pref1" "t0") ∧
      (defaultPreferences "u1" "pref1" "t0").default_currency = "CAD" ∧
      (defaultPreferences "u1" "pref1" "t0").theme = "light" ∧
      (defaultPreferences "u1" "pref1" "t0").exchange_rate_cad_to_inr = 61.5 :=
  (loadPreferences_spec [] "u1" "pref1" "t0").1 rfl

/-- C8 counterexample: `deleteDebt` issues the remote delete even in an
environment where the user would deny every confirmation prompt — the
debt delete is not guarded by a local confirmation. -/
theorem deleteDebt_no_prompt :
    deleteDebt (fun _ => false) "debt_1" = [RemoteCall.deleteCall "debts" "debt_1"] ∧
      deleteDebt (fun _ => false) "debt_1" ≠ [] :=
  ⟨rfl, by decide⟩

/-- C8 amended: removing a family access grant issues its remote delete
only after the user confirms the local prompt, while deleting a debt
issues its remote delete unconditionally, without consulting any
confirmation prompt. -/
theorem deletion_confirmation (confirm : String → Bool)
    (debtId memberId memberEmail : String) :
    deleteDebt confirm debtId = [RemoteCall.deleteCall "debts" debtId] ∧
    (confirm (removeFamilyMemberPrompt memberEmail) = false →
      removeFamilyMember confirm memberId memberEmail = []) ∧
    (confirm (removeFamilyMemberPrompt memberEmail) = true →
      removeFamilyMember confirm memberId memberEmail =
        [RemoteCall.deleteCall "family_access" memberId]) := by
  refine ⟨rfl, fun h => ?_, fun h => ?_⟩
  · simp [removeFamilyMember, h]
  · simp [removeFamilyMember, h]

/-- C8 witness: with a user who denies the prompt, no family-access
delete is issued. -/
theorem deletion_confirmation_witness :
    removeFamilyMember (fun _ => false) "m1" "bob@example.com" = [] :=
  (deletion_confirmation (fun _ => false) "d1" "m1" "bob@example.com").2.1 rfl

/-- C9: under the payment preconditions, the updated debt agrees with the
input debt on every field other than the remaining amounts, the paid flag
and the update timestamp. -/
theorem handlePayment_frame (debt : Debt) (amountStr : String) (a : ℚ)
    (notes : Option String) (rate : ℚ) (userId freshId paymentDate nowIso : String)
    (hstr : amountStr ≠ "") (hpos : 0 < a) (hle : a ≤ debt.remaining_amount_cad) :
    ∃ p d, handlePayment (some debt) amountStr (some a) notes rate
        userId freshId paymentDate nowIso = Except.ok (p, d) ∧
      d.id = debt.id ∧ d.user_id = debt.user_id ∧ d.type = debt.type ∧
      d.person_name = debt.person_name ∧
      d.total_amount_cad = debt.total_amount_cad ∧
      d.total_amount_inr = debt.total_amount_inr ∧
      d.exchange_rate = debt.exchange_rate ∧ d.purpose = debt.purpose ∧
      d.due_date = debt.due_date ∧ d.priority_score = debt.priority_score ∧
      d.created_at = debt.created_at := by
  have h1 : ¬ a ≤ 0 := not_le.mpr hpos
  have h2 : ¬ debt.remaining_amount_cad < a := not_lt.mpr hle
  refine ⟨⟨freshId, debt.id, userId, a, a * rate, rate, paymentDate, notes, nowIso⟩,
    { debt with
      remaining_amount_cad := debt.remaining_amount_cad - a
      remaining_amount_inr := (debt.remaining_amount_cad - a) * rate
      is_paid := if debt.remaining_amount_cad - a ≤ 0 then "1" else "0"
      updated_at := nowIso },
    ?_, rfl, rfl, rfl, rfl, rfl, rfl, rfl, rfl, rfl, rfl, rfl⟩
  simp only [handlePayment, if_neg hstr, if_neg h1, if_neg h2]

/-- C9 witness: the frame property at a concrete debt and payment. -/
theorem handlePayment_frame_witness :
    ∃ p d, handlePayment
        (some ⟨"d1", "u1", DebtType.owe, "Bob", 100, 200, 100, 200, 2, "rent",
          none, "0", 0, "t0", "t0"⟩)
        "40" (some 40) none 2 "u1" "p1" "2024-01-02" "t1" = Except.ok (p, d) ∧
      d.id = "d1" ∧ d.user_id = "u1" ∧ d.type = DebtType.owe ∧
      d.person_name = "Bob" ∧ d.total_amount_cad = 100 ∧ d.total_amount_inr = 200 ∧
      d.exchange_rate = 2 ∧ d.purpose = "rent" ∧ d.due_date = none ∧
      d.priority_score = 0 ∧ d.created_at = "t0" :=
  handlePayment_frame _ "40" 40 none 2 "u1" "p1" "2024-01-02" "t1"
    (by decide) (by norm_num) (by norm_num)

/-- C10: an add-family-member request with an email lacking `@`, equal to
the signed-in user's own email, or already present among the loaded
grants is rejected with a validation error and leaves the grant list
unchanged; every grant a successful request creates has access level
`view` and active flag `"1"`. -/
theorem addFamilyMember_spec (familyMembers : List FamilyAccess)
    (newMemberEmail userEmail userId freshId nowIso : String) :
    ((newMemberEmail.contains '@' = false ∨ newMemberEmail = userEmail ∨
        ∃ m, m ∈ familyMembers ∧ m.member_email = newMemberEmail) →
      (∃ msg, addFamilyMember newMemberEmail userEmail familyMembers
          userId freshId nowIso = Except.error msg) ∧
        addFamilyMemberStore familyMembers newMemberEmail userEmail
          userId freshId nowIso = familyMembers) ∧
    (∀ g, addFamilyMember newMemberEmail userEmail familyMembers
        userId freshId nowIso = Except.ok g →
      g.access_level = "view" ∧ g.is_active = "1") := by
  constructor
  · intro h
    obtain ⟨msg, herr⟩ : ∃ msg, addFamilyMember newMemberEmail userEmail familyMembers
        userId freshId nowIso = Except.error msg := by
      by_cases h1 : newMemberEmail = "" ∨ newMemberEmail.contains '@' = false
      · exact ⟨"Please enter a valid email address",
          by simp only [addFamilyMember, if_pos h1]⟩
      · by_cases h2 : newMemberEmail = userEmail
        · exact ⟨"You cannot add yourself as a family member",
            by simp only [addFamilyMember, if_neg h1, if_pos h2]⟩
        · by_cases h3 : (familyMembers.find?
              (fun m => m.member_email = newMemberEmail)).isSome = true
          · exact ⟨"This email is already added as a family member",
              by simp only [addFamilyMember, if_neg h1, if_pos h3, if_neg h2]⟩
          · exfalso
            rcases h with hc | he | ⟨m, hm, hme⟩
            · exact h1 (Or.inr hc)
            · exact h2 he
            · refine h3 ?_
              rw [List.find?_isSome]
              exact ⟨m, hm, by simpa using hme⟩
    exact ⟨⟨msg, herr⟩, by simp only [addFamilyMemberStore, herr]⟩
  · intro g hg
    simp only [addFamilyMember] at hg
    split at hg
    · exact absurd hg (by simp)
    · split at hg
      · exact absurd hg (by simp)
      · split at hg
        · exact absurd hg (by simp)
        · simp only [Except.ok.injEq] at hg
          subst hg
          exact ⟨rfl, rfl⟩

/-- C5: `getMonthlyData` groups transactions by the first seven
characters of their date, sums income and expenses per group with
`net = income - expenses`, returns the groups sorted strictly ascending
by month key, and contains a month exactly when some input transaction
falls in it. -/
theorem getMonthlyData_spec (ts : List Transaction) :
    List.Pairwise (fun a b : MonthlyData => a.month < b.month) (getMonthlyData ts) ∧
    (∀ e, e ∈ getMonthlyData ts →
      e.income = sumIncome ts e.month ∧ e.expenses = sumExpense ts e.month ∧
        e.net = sumIncome ts e.month - sumExpense ts e.month) ∧
    (∀ m, (∃ e, e ∈ getMonthlyData ts ∧ e.month = m) ↔
      ∃ t, t ∈ ts ∧ t.date.take 7 = m) := by
  have hperm : List.Perm (getMonthlyData ts)
      ((foldMap (fun t => t.date.take 7) txDelta ts).map
        (fun e => ({ month := e.1, income := e.2.1, expenses := e.2.2,
                     net := e.2.1 - e.2.2 } : MonthlyData))) := List.perm_insertionSort _ _
  have hnodupKeys := nodup_keysOf_foldMap (fun t => t.date.take 7) txDelta ts
  have hmonths : ((foldMap (fun t => t.date.take 7) txDelta ts).map
      (fun e => ({ month := e.1, income := e.2.1, expenses := e.2.2,
                   net := e.2.1 - e.2.2 } : MonthlyData))).map (fun e => e.month) =
      keysOf (foldMap (fun t => t.date.take 7) txDelta ts) := by
    rw [List.map_map]
    rfl
  have hnodupMonths : ((getMonthlyData ts).map (fun e => e.month)).Nodup := by
    refine ((hperm.map (fun e => e.month)).nodup_iff).mpr ?_
    rw [hmonths]
    exact hnodupKeys
  have hsorted : List.Pairwise (fun a b : MonthlyData => a.month ≤ b.month)
      (getMonthlyData ts) := by
    haveI h1 : IsTotal MonthlyData (fun a b => a.month ≤ b.month) :=
      ⟨fun a b => le_total a.month b.month⟩
    haveI h2 : IsTrans MonthlyData (fun a b => a.month ≤ b.month) :=
      ⟨fun a b c hab hbc => le_trans hab hbc⟩
    exact List.sorted_insertionSort _ _
  refine ⟨?_, ?_, ?_⟩
  · have hne : List.Pairwise (fun a b : MonthlyData => a.month ≠ b.month)
        (getMonthlyData ts) := List.pairwise_map.mp hnodupMonths
    exact (hsorted.and hne).imp (fun h => lt_of_le_of_ne h.1 h.2)
  · intro e he
    obtain ⟨p, hp, rfl⟩ := List.mem_map.mp (hperm.mem_iff.mp he)
    have hv := foldMap_values (fun t => t.date.take 7) txDelta ts p hp
    rw [sumBy_txDelta] at hv
    refine ⟨?_, ?_, ?_⟩
    · show p.2.1 = sumIncome ts p.1
      rw [hv]
    · show p.2.2 = sumExpense ts p.1
      rw [hv]
    · show p.2.1 - p.2.2 = sumIncome ts p.1 - sumExpense ts p.1
      rw [hv]
  · intro m
    constructor
    · rintro ⟨e, he, rfl⟩
      obtain ⟨p, hp, rfl⟩ := List.mem_map.mp (hperm.mem_iff.mp he)
      exact (mem_keysOf_foldMap _ _ _ _).mp (List.mem_map_of_mem Prod.fst hp)
    · rintro ⟨t, ht, htm⟩
      obtain ⟨p, hp, hpm⟩ := List.mem_map.mp
        ((mem_keysOf_foldMap (fun t => t.date.take 7) txDelta ts m).mpr ⟨t, ht, htm⟩)
      exact ⟨_, hperm.mem_iff.mpr (List.mem_map_of_mem _ hp), hpm⟩

/-- C5 witness: a single January transaction produces a group for its
month. -/
theorem getMonthlyData_spec_witness :
    ∃ e, e ∈ getMonthlyData
        [⟨"t1", "u1", TxType.income, "Salary", 100, 200, 2, "pay",
          "2024-01-15", "c1", "u1"⟩] ∧
      e.month = ("2024-01-15" : String).take 7 :=
  ((getMonthlyData_spec _).2.2 _).mpr ⟨_, List.mem_singleton_self _, rfl⟩

/-- C6 (amended): `getCategoryData` groups the requested type's
transactions by category, sums amount and counts entries per category,
attaches `percentage = amount / totalOfType * 100` when the type's total
is positive and 0 otherwise (the source branches on `totalAmount > 0`,
not on `totalAmount = 0`), returns the groups sorted descending by
amount, and an empty input yields an empty result. -/
theorem getCategoryData_spec (ts : List Transaction) (ty : TxType) :
    List.Pairwise (fun a b : CategoryData => b.amount ≤ a.amount) (getCategoryData ts ty) ∧
    (∀ e, e ∈ getCategoryData ts ty →
      e.amount = sumCat ts ty e.category ∧ e.transactions = countCat ts ty e.category ∧
        e.percentage =
          if 0 < totalOfType ts ty then sumCat ts ty e.category / totalOfType ts ty * 100
          else 0) ∧
    (∀ c, (∃ e, e ∈ getCategoryData ts ty ∧ e.category = c) ↔
      ∃ t, t ∈ ts ∧ t.type = ty ∧ t.category = c) ∧
    (ts = [] → getCategoryData ts ty = []) := by
  have htotal : (ts.filter (fun t => decide (t.type = ty))).foldl
      (fun s t => s + t.amount_cad) 0 = totalOfType ts ty := by
    rw [totalOfType_foldl, zero_add]
  have hperm : List.Perm (getCategoryData ts ty)
      ((foldMap (fun t => t.category) (fun t => (t.amount_cad, (1 : ℕ)))
          (ts.filter (fun t => decide (t.type = ty)))).map
        (fun e => ({ category := e.1, amount := e.2.1,
                     percentage :=
                       if 0 < (ts.filter (fun t => decide (t.type = ty))).foldl
                           (fun s t => s + t.amount_cad) 0 then
                         e.2.1 / ((ts.filter (fun t => decide (t.type = ty))).foldl
                           (fun s t => s + t.amount_cad) 0) * 100
                       else 0,
                     transactions := e.2.2 } : CategoryData))) := List.perm_insertionSort _ _
  have hsorted : List.Pairwise (fun a b : CategoryData => b.amount ≤ a.amount)
      (getCategoryData ts ty) := by
    haveI h1 : IsTotal CategoryData (fun a b => b.amount ≤ a.amount) :=
      ⟨fun a b => le_total b.amount a.amount⟩
    haveI h2 : IsTrans CategoryData (fun a b => b.amount ≤ a.amount) :=
      ⟨fun a b c hab hbc => le_trans hbc hab⟩
    exact List.sorted_insertionSort _ _
  refine ⟨hsorted, ?_, ?_, ?_⟩
  · intro e he
    obtain ⟨p, hp, rfl⟩ := List.mem_map.mp (hperm.mem_iff.mp he)
    have hv := foldMap_values (fun t => t.category) (fun t => (t.amount_cad, (1 : ℕ)))
      (ts.filter (fun t => decide (t.type = ty))) p hp
    rw [sumBy_catDelta] at hv
    refine ⟨?_, ?_, ?_⟩
    · show p.2.1 = sumCat ts ty p.1
      rw [hv]
    · show p.2.2 = countCat ts ty p.1
      rw [hv]
    · show (if 0 < (ts.filter (fun t => decide (t.type = ty))).foldl
            (fun s t => s + t.amount_cad) 0 then
          p.2.1 / ((ts.filter (fun t => decide (t.type = ty))).foldl
            (fun s t => s + t.amount_cad) 0) * 100
        else 0) =
        if 0 < totalOfType ts ty then sumCat ts ty p.1 / totalOfType ts ty * 100 else 0
      rw [htotal, hv]
  · intro c
    constructor
    · rintro ⟨e, he, rfl⟩
      obtain ⟨p, hp, rfl⟩ := List.mem_map.mp (hperm.mem_iff.mp he)
      obtain ⟨t, htf, htc⟩ := (mem_keysOf_foldMap _ _ _ _).mp
        (List.mem_map_of_mem Prod.fst hp)
      have := List.mem_filter.mp htf
      exact ⟨t, this.1, by simpa using this.2, htc⟩
    · rintro ⟨t, ht, hty, htc⟩
      obtain ⟨p, hp, hpc⟩ := List.mem_map.mp
        ((mem_keysOf_foldMap (fun t => t.category) (fun t => (t.amount_cad, (1 : ℕ)))
          (ts.filter (fun t => decide (t.type = ty))) c).mpr
            ⟨t, List.mem_filter.mpr ⟨ht, by simpa using hty⟩, htc⟩)
      exact ⟨_, hperm.mem_iff.mpr (List.mem_map_of_mem _ hp), hpc⟩
  · intro h
    subst h
    rfl

/-- C6 witness: a single income transaction produces a group for its
category. -/
theorem getCategoryData_spec_witness :
    ∃ e, e ∈ getCategoryData
        [⟨"t1", "u1", TxType.income, "Salary", 100, 200, 2, "pay",
          "2024-01-15", "c1", "u1"⟩] TxType.income ∧
      e.category = "Salary" :=
  ((getCategoryData_spec _ TxType.income).2.2.1 "Salary").mpr
    ⟨_, List.mem_singleton_self _, rfl, rfl⟩

/-- C6 counterexample: with one expense of -10 the type total is -10, not
zero, yet the computed percentage is 0 rather than
`amount / totalOfType * 100 = 100`, because the source tests
`totalAmount > 0` rather than `totalAmount = 0`. -/
theorem getCategoryData_percentage_counterexample :
    (∃ e, e ∈ getCategoryData
        [⟨"t1", "u1", TxType.expense, "Food", -10, -20, 2, "x",
          "2024-01-05", "c1", "u1"⟩] TxType.expense ∧
      e.category = "Food" ∧ e.amount = -10 ∧ e.percentage = 0) ∧
    totalOfType
      [⟨"t1", "u1", TxType.expense, "Food", -10, -20, 2, "x",
        "2024-01-05", "c1", "u1"⟩] TxType.expense = -10 ∧
    (-10 : ℚ) / -10 * 100 = 100 ∧ (0 : ℚ) ≠ 100 := by
  refine ⟨⟨⟨"Food", -10, 0, 1⟩, ?_, rfl, rfl, rfl⟩, ?_, by norm_num, by norm_num⟩
  · show _ ∈ getCategoryData _ _
    simp only [getCategoryData, List.filter, foldMap, List.foldl, bumpKey, List.map,
      List.insertionSort, List.orderedInsert]
    norm_num
  · simp only [totalOfType]
    norm_num

/-- C10 witness: adding the signed-in user's own email is rejected and
the grant list is unchanged. -/
theorem addFamilyMember_spec_witness :
    (∃ msg, addFamilyMember "alice@example.com" "alice@example.com" [] "u1" "f1" "t0" =
        Except.error msg) ∧
      addFamilyMemberStore [] "alice@example.com" "alice@example.com" "u1" "f1" "t0" = [] :=
  (addFamilyMember_spec [] "alice@example.com" "alice@example.com" "u1" "f1" "t0").1
    (Or.inr (Or.inl rfl))

end MoneyMate
